import Mathlib

/-!
Shallow embedding of `src/completion/index.ts` (the `Completion` session
controller of coc.nvim) and proofs about the behaviour its specification
claims.

Modelling conventions:
* The mutable fields of the `Completion` class become a `CompletionState`
  record; each event handler becomes a pure function
  `State → inputs → State × outcome × List Effect`.
* Reads of mutable collaborator state performed after an `await`
  (document `changedtick`, editor mode, `getcurpos`-derived text, `Date.now()`)
  are supplied through environment records, one field per read site, so the
  race checks of the source stay visible.
* External collaborators whose code is not part of the analysed file
  (`sources.shouldTrigger`, `sources.shouldCommit`, `document.isWord`,
  `complete.filterResults`, `complete.completeInComplete`) are function
  parameters of the environments: the theorems quantify over them.
* Host RPC calls and collaborator side effects are recorded in an `Effect`
  list in program order.
* Strings are modelled as Lean `String`s; JavaScript byte/UTF-16 column
  arithmetic is modelled as character indexing (the ASCII simplification).
* Timestamps are `Int` (milliseconds), buffer change counters are `Nat`.
-/

/-- `LastInsert` interface: last raw character typed plus its timestamp. -/
structure LastInsert where
  character : Char
  timestamp : Int
  deriving Repr, DecidableEq

/-- documentation payload of a candidate (`{ kind, value }`). -/
structure MarkupContent where
  kind : String
  value : String
  deriving Repr, DecidableEq

/-- `VimCompleteItem`: one completion candidate as this file uses it. -/
structure VimCompleteItem where
  word : String
  abbr : String := ""
  info : String := ""
  user_data : String := ""
  documentation : Option MarkupContent := none
  hasDetail : Bool := false
  deriving Repr, DecidableEq

/-- `CompleteOption`: the trigger context captured when a session opens. -/
structure CompleteOption where
  bufnr : Nat
  linenr : Nat
  col : Nat
  colnr : Nat
  line : String
  input : String
  filetype : String := ""
  triggerCharacter : Option Char := none
  deriving Repr, DecidableEq

/-- The `Complete` aggregator as observed from the controller file:
its trigger option, its `input`, whether `results` is set, and the
`isIncomplete` / `isCanceled` flags. -/
structure CompleteRec where
  option : CompleteOption
  input : String
  results : Bool
  isIncomplete : Bool
  isCanceled : Bool := false
  deriving Repr, DecidableEq

/-- The fields of `CompleteConfig` that the controller reads. -/
structure CompleteConfig where
  autoTrigger : String := "always"
  acceptSuggestionOnCommitCharacter : Bool := false
  keepCompleteopt : Bool := false
  numberSelect : Bool := false
  minTriggerInputLength : Nat := 1
  noselect : Bool := true
  enablePreview : Bool := false
  deriving Repr, DecidableEq

/-- The mutable state of the `Completion` class.  `resolveToken` is the id of
the current `resolveTokenSource`; ids whose `cancel()` has been called are
collected in `canceledTokens` so that "the token reports canceled" is
observable after the source reference is dropped.  `floating` tells whether
the `FloatingWindow` object exists (`closePreviewWindow` nulls it). -/
structure CompletionState where
  config : CompleteConfig := {}
  activted : Bool := false
  input : String := ""
  lastInsert : Option LastInsert := none
  complete : Option CompleteRec := none
  completeItems : List VimCompleteItem := []
  currIndex : Nat := 0
  changedTick : Nat := 0
  insertCharTs : Int := 0
  insertLeaveTs : Int := 0
  isResolving : Bool := false
  resolveToken : Option Nat := none
  canceledTokens : List Nat := []
  floating : Bool := false
  documentPaused : Bool := false
  hasDocument : Bool := false
  documentBufnr : Nat := 0
  recentScores : List ((Nat × String) × Int) := []
  deriving Repr, DecidableEq

/-- Host commands and collaborator side effects, in program order. -/
inductive Effect where
  | hidePopup
  | unmapKeys
  | mapKeys
  | setCompleteopt (opt : String)
  | restoreCompleteopt
  | doCompleteCmd (col : Nat) (items : List VimCompleteItem)
  | setLine (linenr : Nat) (text : String)
  | setCursor (linenr : Nat) (col : Nat)
  | errorMessage (msg : String)
  | logErrorStack
  | completeResolve (word : String)
  | acceptHook (word : String)
  | forceSync
  | fireContentChanges
  | completeCancel
  | patchChange
  | previewShow (content : String)
  | previewClose
  | reloadCall
  deriving Repr, DecidableEq

/-- JavaScript `s.endsWith(t)` under the character model (kernel-reducible
replacement for the library string function). -/
def strEndsWith (s t : String) : Bool :=
  Nat.ble t.data.length s.data.length
    && (s.data.drop (s.data.length - t.data.length) == t.data)

/-- JavaScript `s.trim() == ''`: every character of `s` is whitespace. -/
def isBlank (s : String) : Bool := s.data.all (fun c => c.isWhitespace)

/-- `closePreviewWindow`: closes and drops the floating window if present. -/
def closePreviewWindow (st : CompletionState) : CompletionState × List Effect :=
  if st.floating then ({ st with floating := false }, [Effect.previewClose])
  else (st, [])

/-- `stop()`: tear the session down.  Returns unchanged with no commands when
not activated; otherwise cancels the resolve token, closes the preview,
releases the document pause flag, fires content changes, clears the items,
cancels and discards the aggregator and emits the host commands. -/
def stop (st : CompletionState) : CompletionState × List Effect :=
  if st.activted = false then (st, [])
  else
    let stTok :=
      match st.resolveToken with
      | some t => { st with resolveToken := none, canceledTokens := t :: st.canceledTokens }
      | none => st
    let p := closePreviewWindow stTok
    let st1 := p.1
    let st2 := { st1 with
      activted := false
      documentPaused := false
      completeItems := []
      complete := none }
    (st2,
      p.2 ++ [Effect.fireContentChanges]
        ++ (if st.complete.isSome then [Effect.completeCancel] else [])
        ++ (if st.config.numberSelect then [Effect.unmapKeys] else [])
        ++ [Effect.hidePopup]
        ++ (if st.config.keepCompleteopt then [] else [Effect.restoreCompleteopt]))

/-- the `completeOpt` getter. -/
def completeOpt (config : CompleteConfig) : String :=
  if config.noselect then
    "noselect,menuone" ++ (if config.enablePreview then ",preview" else "")
  else
    "noinsert,menuone" ++ (if config.enablePreview then ",preview" else "")

/-- `start(complete)`: activate, reset resolving, close the preview, cancel a
previously owned aggregator, install the new one, clear the items, set
completeopt unless kept, force a sync and pause the document. -/
def start (st : CompletionState) (c : CompleteRec) : CompletionState × List Effect :=
  let wasActivted := st.activted
  let p := closePreviewWindow { st with activted := true, isResolving := false }
  let st1 := { p.1 with complete := some c, completeItems := [] }
  let st2 := { st1 with documentPaused := true }
  (st2,
    p.2 ++ (if wasActivted ∧ st.complete.isSome then [Effect.completeCancel] else [])
      ++ (if st.config.keepCompleteopt then [] else [Effect.setCompleteopt (completeOpt st.config)])
      ++ [Effect.forceSync])

/-- `appendNumber` helper: the numbered `abbr` given to item `i` (1-based,
10 shown as 0). -/
def numberedAbbr (i : Nat) (it : VimCompleteItem) : VimCompleteItem :=
  let idx := if i = 10 then 0 else i
  { it with abbr :=
      if it.abbr ≠ "" then toString idx ++ " " ++ it.abbr
      else toString idx ++ " " ++ it.word }

/-- `appendNumber(items)`: when `numberSelect` is on, prefix the first ten
items' `abbr` with their selection digit. -/
def appendNumber (numberSelect : Bool) (items : List VimCompleteItem) :
    List VimCompleteItem :=
  if numberSelect then
    items.mapIdx (fun i it => if i < 10 then numberedAbbr (i + 1) it else it)
  else items

/-- `showCompletion(col, items)`: record the document tick read at show time,
map digit keys when number-select is on, issue the host complete command and
store the items. -/
def showCompletion (st : CompletionState) (tickShow : Nat) (col : Nat)
    (items : List VimCompleteItem) : CompletionState × List Effect :=
  let items' := appendNumber st.config.numberSelect items
  ({ st with changedTick := tickShow, completeItems := items' },
    (if st.config.numberSelect then [Effect.mapKeys] else [])
      ++ [Effect.doCompleteCmd col items'])

/-- Outcome labels for `resumeCompletion`. -/
inductive ResumeOutcome where
  | noop
  | stopped
  | droppedWait
  | droppedQuery
  | droppedInactive
  | stoppedEmpty
  | shown (requeried : Bool) (items : List VimCompleteItem)
  deriving Repr, DecidableEq

/-- Environment of one `resumeCompletion` run: the document tick reads, the
aggregator's filter and incomplete-requery functions, the re-read of
`isActivted` after the suspension points, and the tick read inside
`showCompletion`. -/
structure ResumeEnv where
  tick0 : Nat
  tickAfterWait : Nat
  tickAfterQuery : Nat
  queryItems : String → List VimCompleteItem
  filterItems : String → List VimCompleteItem
  activeAfter : Bool
  tickShow : Nat

/-- Tail of `resumeCompletion` after items are obtained: the `isActivted`
re-check, the empty-result stop, and the show. -/
def finishResume (st : CompletionState) (c : CompleteRec) (requeried : Bool)
    (items : List VimCompleteItem) (env : ResumeEnv) :
    CompletionState × ResumeOutcome × List Effect :=
  if env.activeAfter = false then (st, ResumeOutcome.droppedInactive, [])
  else if items = [] then
    let p := stop st
    (p.1, ResumeOutcome.stoppedEmpty, p.2)
  else
    let p := showCompletion st env.tickShow c.option.col items
    (p.1, ResumeOutcome.shown requeried items, p.2)

/-- `resumeCompletion(search)`: no-op when inactive, without results, or when
the search equals the current input; stop on a null, space-terminated or
shortened search; otherwise either requery incomplete providers under the
double changedtick check, or filter locally, then show. -/
def resumeCompletion (st : CompletionState) (search : Option String)
    (env : ResumeEnv) : CompletionState × ResumeOutcome × List Effect :=
  match st.complete with
  | none => (st, ResumeOutcome.noop, [])
  | some c =>
    if st.activted = false ∨ c.results = false ∨ search = some st.input then
      (st, ResumeOutcome.noop, [])
    else
      match search with
      | none =>
        let p := stop st
        (p.1, ResumeOutcome.stopped, p.2)
      | some s =>
        if strEndsWith s " " = true ∨ s.length < c.input.length then
          let p := stop st
          (p.1, ResumeOutcome.stopped, p.2)
        else
          let st1 := { st with input := s }
          if c.isIncomplete then
            if env.tickAfterWait ≠ env.tick0 then
              (st1, ResumeOutcome.droppedWait, [Effect.patchChange, Effect.forceSync])
            else
              let items := env.queryItems s
              if env.tickAfterQuery ≠ env.tick0 then
                (st1, ResumeOutcome.droppedQuery, [Effect.patchChange, Effect.forceSync])
              else
                let p := finishResume st1 c true items env
                (p.1, p.2.1, Effect.patchChange :: Effect.forceSync :: p.2.2)
          else
            finishResume st1 c false (env.filterItems s) env

/-- the `latestInsert` getter: the recorded mark, unless missing or older
than 100ms. -/
def latestInsert (lastInsert : Option LastInsert) (now : Int) :
    Option LastInsert :=
  match lastInsert with
  | none => none
  | some li => if now - li.timestamp > 100 then none else some li

/-- the `latestInsertChar` getter. -/
def latestInsertChar (lastInsert : Option LastInsert) (now : Int) :
    Option Char :=
  (latestInsert lastInsert now).map (fun li => li.character)

/-- `onInsertCharPre(character)`: maybe issue the vim reload workaround, then
record the pending-insert mark and the keystroke timestamp.  `isWordU` is
the generic `isWord` helper of `util/string`; `pumevent`, `isVim`, `isTest`
are the `workspace.env` flags read by the workaround condition. -/
def onInsertCharPre (st : CompletionState) (character : Char) (now : Int)
    (pumevent isVim isTest : Bool) (isWordU : Char → Bool) :
    CompletionState × List Effect :=
  let effs :=
    if st.activted = true ∧ pumevent = false ∧ isVim = false
        ∧ st.completeItems ≠ [] ∧ isWordU character = true ∧ isTest = false
    then [Effect.reloadCall] else []
  ({ st with
      lastInsert := some { character := character, timestamp := now }
      insertCharTs := now }, effs)

/-- Inner loop of `getInput`: scanning index `i` downward, `ch` is
`pre[i - 1]` (null at `i = 0`); the first non-word `ch` fixes the slice. -/
def getInputGo (isWordF : Char → Bool) (pre : List Char) : Nat → List Char
  | 0 => pre
  | i + 1 =>
    if isWordF (pre.getD i ' ') = false then pre.drop (i + 1)
    else getInputGo isWordF pre i

/-- `getInput(document, pre)`: the trailing run of word characters of `pre`
(the slice from the last position whose predecessor is a non-word
character). -/
def getInput (isWordF : Char → Bool) (pre : List Char) : List Char :=
  match pre with
  | [] => []
  | _ => getInputGo isWordF pre (pre.length - 1)

/-- `shouldTrigger(document, pre)`: false on a null or blank `pre` and in
mode `none`; true on a provider trigger-character match; otherwise only in
mode `always` when the character before the cursor is a word character and
the trailing word run reaches the minimum trigger length.  `sourcesMatch`
stands for the external `sources.shouldTrigger(pre, document.filetype)`
call and `isWordF` for `document.isWord`. -/
def shouldTrigger (config : CompleteConfig) (isWordF : Char → Bool)
    (sourcesMatch : Bool) (pre? : Option String) : Bool :=
  match pre? with
  | none => false
  | some pre =>
    if pre = "" ∨ isBlank pre = true then false
    else if config.autoTrigger = "none" then false
    else if sourcesMatch then true
    else if config.autoTrigger ≠ "always" then false
    else if isWordF pre.back then
      if config.minTriggerInputLength = 1 then true
      else (getInput isWordF pre.data).length ≥ config.minTriggerInputLength
    else false

/-- Environment of one `onPumRedraw` run: the `workspace.env.floating` flag,
the fresh token id allocated for the resolve, and the token / activation
re-reads after the two suspension points (the resolve and the 10ms wait). -/
structure PumEnv where
  floating : Bool
  freshToken : Nat
  resolveCanceled : Bool
  canceledAfterWait : Bool
  activeAfterWait : Bool
  deriving Repr, DecidableEq

/-- `onPumRedraw(item, bounding)`: cancel the previous resolve token, ignore
vim-driven redraws, reset the index when the item is unknown, otherwise set
the 1-based index, resolve the item and drive the preview window. -/
def onPumRedraw (st : CompletionState) (item : VimCompleteItem)
    (env : PumEnv) : CompletionState × List Effect :=
  if env.floating = false then (st, [])
  else
    let st0 :=
      match st.resolveToken with
      | some t => { st with resolveToken := none, canceledTokens := t :: st.canceledTokens }
      | none => st
    if st0.lastInsert.isSome then (st0, [])
    else
      let p := fun (o : VimCompleteItem) => o.word = item.word ∧ o.user_data = item.user_data
      match st0.completeItems.find? (fun o => decide (p o)) with
      | none =>
        let q := closePreviewWindow { st0 with currIndex := 0 }
        (q.1, q.2)
      | some currItem =>
        let st1 := { st0 with
          currIndex := st0.completeItems.findIdx (fun o => decide (p o)) + 1
          resolveToken := some env.freshToken }
        let effs := [Effect.completeResolve currItem.word]
        if env.resolveCanceled then (st1, effs)
        else
          let content :=
            match currItem.documentation with
            | some d => d.value
            | none => currItem.info
          if content = "" then
            let q := closePreviewWindow st1
            ({ q.1 with resolveToken := none }, effs ++ q.2)
          else
            if env.canceledAfterWait ∨ env.activeAfterWait = false then (st1, effs)
            else
              ({ st1 with floating := true, resolveToken := none },
                effs ++ [Effect.previewShow content])

/-- `addRecent(word, bufnr)`: record the acceptance time of a word. -/
def addRecent (st : CompletionState) (word : String) (bufnr : Nat)
    (now : Int) : CompletionState :=
  if word = "" then st
  else { st with recentScores := ((bufnr, word), now) :: st.recentScores }

/-- Environment of one `onCompleteDone` run: whether the resolve throws, the
editor mode and the `insertCharTs` / `insertLeaveTs` re-reads after the 50ms
wait, and the `getPreviousContent` result after the patch. -/
structure DoneEnv where
  now : Int
  resolveThrows : Bool
  modeAfter : String
  insertCharTsAfter : Int
  insertLeaveTsAfter : Int
  contentAfter : Option String

/-- `onCompleteDone(item)`: guard on activation, document and a non-null
word; match the accepted candidate by word and user-data; stop at once; then
resolve, record recency, wait, and only under the freshness checks (insert
mode, unchanged keystroke and insert-leave timestamps, buffer tail still the
accepted word) run the provider accept hook and force a re-sync.  A null
`contentAfter` makes `content.endsWith` throw, which the catch logs. -/
def onCompleteDone (st : CompletionState) (word? : Option String)
    (userData : String) (env : DoneEnv) : CompletionState × List Effect :=
  if st.activted = false ∨ st.hasDocument = false ∨ word? = none then (st, [])
  else
    let w := word?.getD ""
    let found := st.completeItems.find?
      (fun o => decide (o.word = w ∧ o.user_data = userData))
    let p := stop st
    let st1 := p.1
    let effs := p.2
    match found with
    | none => (st1, effs)
    | some item =>
      let ts := st1.insertCharTs
      let lts := st1.insertLeaveTs
      if env.resolveThrows then
        (st1, effs ++ [Effect.completeResolve item.word, Effect.logErrorStack])
      else
        let st2 := addRecent st1 item.word st1.documentBufnr env.now
        let effs := effs ++ [Effect.completeResolve item.word]
        if env.modeAfter ≠ "i" ∨ env.insertCharTsAfter ≠ ts
            ∨ env.insertLeaveTsAfter ≠ lts then
          (st2, effs)
        else
          match env.contentAfter with
          | none => (st2, effs ++ [Effect.patchChange, Effect.logErrorStack])
          | some content =>
            if strEndsWith content item.word = false then
              (st2, effs ++ [Effect.patchChange])
            else
              (st2, effs ++ [Effect.patchChange, Effect.acceptHook item.word,
                Effect.forceSync])

/-- `onInsertLeave(bufnr)`: record the timestamp, force a sync and stop. -/
def onInsertLeave (st : CompletionState) (now : Int) :
    CompletionState × List Effect :=
  let p := stop { st with insertLeaveTs := now }
  (p.1, Effect.forceSync :: p.2)

/-- The document as read by the handlers: its fixed filetype, its buffer
number and its word-character classifier. -/
structure DocumentRec where
  filetype : String
  bufnr : Nat
  isWord : Char → Bool

/-- JavaScript `s.slice(0, b)` under the character model (also the
`byteSlice(s, 0, b)` of `util/string`). -/
def strTake (s : String) (b : Nat) : String := String.mk (s.data.take b)

/-- JavaScript `s.slice(a)` under the character model. -/
def strFrom (s : String) (a : Nat) : String := String.mk (s.data.drop a)

/-- `characterIndex(s, byteIdx)` of `util/string` under the ASCII
simplification byte = character. -/
def characterIndex (_s : String) (byteIdx : Nat) : Nat := byteIdx

/-- Outcome labels for `startCompletion` / `_doComplete`. -/
inductive StartOutcome where
  | noDocument
  | noSources
  | threw (msg : String)
  | errorHandled (msg : String)
  | abandoned
  | stoppedEmptyFetch
  | shownInitial (items : List VimCompleteItem)
  | resumed (r : ResumeOutcome)
  deriving Repr, DecidableEq

/-- Environment of one `startCompletion` run: the resolved document, the
number of matched sources, the fetch result (or the exception it throws),
the `isCanceled` / `isActivted` re-reads after the fetch, the aggregated
`isIncomplete` flag, the `getResumeInput` read, the cancellation re-read
after it, and the environments of the nested show / resume. -/
structure StartEnv where
  document : Option DocumentRec
  sourcesCount : Nat
  fetch : Except String (List VimCompleteItem)
  isIncomplete : Bool
  canceledAfterFetch : Bool
  activeAfterFetch : Bool
  resumeInput : Option String
  canceledAfterInput : Bool
  tickShow : Nat
  resumeEnv : ResumeEnv

/-- `_doComplete(option)`: record the input, select the sources (summarised
by `sourcesCount`), build and `start` the aggregator, fetch, and on success
either show at the original column (when the resume input still equals the
trigger input) or fall through to `resumeCompletion`. -/
def doCompleteM (st : CompletionState) (opt : CompleteOption)
    (env : StartEnv) : CompletionState × StartOutcome × List Effect :=
  let st := { st with input := opt.input }
  if env.sourcesCount = 0 then (st, StartOutcome.noSources, [])
  else
    let c : CompleteRec :=
      { option := opt, input := opt.input, results := false
        isIncomplete := false, isCanceled := false }
    let p := start st c
    let st1 := p.1
    match env.fetch with
    | Except.error msg => (st1, StartOutcome.threw msg, p.2)
    | Except.ok items =>
      let st2 := { st1 with
        complete := some { c with results := true, isIncomplete := env.isIncomplete } }
      if env.canceledAfterFetch ∨ env.activeAfterFetch = false then
        (st2, StartOutcome.abandoned, p.2)
      else if items = [] then
        let q := stop st2
        (q.1, StartOutcome.stoppedEmptyFetch, p.2 ++ q.2)
      else if env.canceledAfterInput then
        (st2, StartOutcome.abandoned, p.2)
      else if env.resumeInput = some opt.input then
        let q := showCompletion st2 env.tickShow opt.col items
        (q.1, StartOutcome.shownInitial items, p.2 ++ q.2)
      else
        let q := resumeCompletion st2 env.resumeInput env.resumeEnv
        (q.1, StartOutcome.resumed q.2.1, p.2 ++ q.2.2)

/-- `startCompletion(option)`: silently return when the document cannot be
resolved; fix the filetype and record the document; run `_doComplete`, and
on an exception stop the session, surface a user-visible error message and
log the stack. -/
def startCompletion (st : CompletionState) (opt : CompleteOption)
    (env : StartEnv) : CompletionState × StartOutcome × List Effect :=
  match env.document with
  | none => (st, StartOutcome.noDocument, [])
  | some doc =>
    let opt := { opt with filetype := doc.filetype }
    let st := { st with hasDocument := true, documentBufnr := doc.bufnr }
    let p := doCompleteM st opt env
    match p.2.1 with
    | StartOutcome.threw msg =>
      let q := stop p.1
      (q.1, StartOutcome.errorHandled msg,
        p.2.2 ++ q.2
          ++ [Effect.errorMessage ("Error happens on complete: " ++ msg),
            Effect.logErrorStack])
    | oc => (p.1, oc, p.2.2)

/-- Outcome labels for `onTextChangedI`. -/
inductive TCIOutcome where
  | noDocument
  | idleNoChar
  | idleBlank
  | idleNoTrigger
  | idleTriggered (so : StartOutcome)
  | wrongBuffer
  | committed (newLine : String) (curcol : Nat)
  | cursorMoved
  | charTriggered (so : StartOutcome)
  | inactive
  | resumed (r : ResumeOutcome)
  deriving Repr, DecidableEq

/-- Environment of one `onTextChangedI` run: the clock, the document resolved
from `workspace.bufnr`, the `this.document.isWord` classifier used by the
commit check, the `getPreviousContent` read, the external
`sources.shouldCommit` and `sources.shouldTrigger` calls, the
`isTriggerCharacter` helper of `util/string`, the option returned by the
host for a trigger, and the nested environments. -/
structure TCIEnv where
  now : Int
  document : Option DocumentRec
  thisDocIsWord : Char → Bool
  previousContent : Option String
  shouldCommit : VimCompleteItem → Char → Bool
  sourcesMatch : String → String → Bool
  isTriggerChar : Char → Bool
  completeOption : CompleteOption
  startEnv : StartEnv
  resumeEnv : ResumeEnv

/-- `triggerCompletion(document, pre)`: evaluate the trigger policy and, when
it admits, fetch the host's complete option, record the last character of
`pre` as trigger character and start a session. -/
def triggerCompletion (st : CompletionState) (doc : DocumentRec)
    (pre : Option String) (env : TCIEnv) (effs0 : List Effect) :
    CompletionState × TCIOutcome × List Effect :=
  let sm := match pre with
    | some p => env.sourcesMatch p doc.filetype
    | none => false
  if shouldTrigger st.config doc.isWord sm pre = false then
    (st, TCIOutcome.idleNoTrigger, effs0)
  else
    let lastCh : Option Char := match pre with
      | some p => if p = "" then none else some p.back
      | none => none
    let opt := { env.completeOption with triggerCharacter := lastCh }
    let q := startCompletion st opt env.startEnv
    (q.1, TCIOutcome.idleTriggered q.2.1, effs0 ++ q.2.2)

/-- The candidate inspected by the commit-character check: the selected item
when an index is set, the first item otherwise. -/
def commitCandidate (st : CompletionState) : Option VimCompleteItem :=
  if st.currIndex ≠ 0 then st.completeItems.get? (st.currIndex - 1)
  else st.completeItems.get? 0

/-- Tail of `onTextChangedI` in the active, non-committing case: stop when
the cursor left the line, start a fresh session on a trigger character,
otherwise resume with the narrowed search. -/
def tciAfterCommit (st : CompletionState) (c : CompleteRec)
    (doc : DocumentRec) (env : TCIEnv) (effs0 : List Effect) :
    CompletionState × TCIOutcome × List Effect :=
  match env.previousContent with
  | none =>
    let q := stop st
    (q.1, TCIOutcome.cursorMoved, effs0 ++ q.2)
  | some content =>
    let character : Option Char := if content = "" then none else some content.back
    let isTrig : Bool := match character with
      | some ch => env.isTriggerChar ch && env.sourcesMatch content doc.filetype
      | none => false
    if isTrig then
      let opt := { env.completeOption with triggerCharacter := character }
      let q := startCompletion st opt env.startEnv
      (q.1, TCIOutcome.charTriggered q.2.1, effs0 ++ q.2.2)
    else if st.activted = false then (st, TCIOutcome.inactive, effs0)
    else
      let search := strFrom content (characterIndex content c.option.col)
      let q := resumeCompletion st (some search) env.resumeEnv
      (q.1, TCIOutcome.resumed q.2.1, effs0 ++ q.2.2)

/-- `onTextChangedI(bufnr)`: read and clear the pending-insert mark, resolve
the document, patch its change; when idle decide whether to trigger; when
active check the buffer, apply the commit-character policy and otherwise
fall through to trigger-character and resume handling. -/
def onTextChangedI (st : CompletionState) (bufnr : Nat) (env : TCIEnv) :
    CompletionState × TCIOutcome × List Effect :=
  let lic := latestInsertChar st.lastInsert env.now
  let st := { st with lastInsert := none }
  match env.document with
  | none => (st, TCIOutcome.noDocument, [])
  | some doc =>
    let effs0 := [Effect.patchChange]
    if st.activted = false then
      match lic with
      | none => (st, TCIOutcome.idleNoChar, effs0)
      | some _ =>
        let pre := env.previousContent
        let last : Option Char := match pre with
          | some p => if p = "" then none else some p.back
          | none => none
        let lastIsBlank := match last with
          | some ch => ch.isWhitespace
          | none => false
        if lastIsBlank then (st, TCIOutcome.idleBlank, effs0)
        else triggerCompletion st doc pre env effs0
    else
      match st.complete with
      | none => (st, TCIOutcome.wrongBuffer, effs0)
      | some c =>
        if c.option.bufnr ≠ bufnr then (st, TCIOutcome.wrongBuffer, effs0)
        else
          let commitCh : Option Char :=
            match lic with
            | some ch =>
              if st.config.acceptSuggestionOnCommitCharacter
                  ∧ env.thisDocIsWord ch = false then some ch
              else none
            | none => none
          match commitCh with
          | some ch =>
            match commitCandidate st with
            | some item =>
              if env.shouldCommit item ch then
                let o := c.option
                let q := stop st
                let newLine := strTake o.line o.col ++ item.word
                  ++ String.mk [ch] ++ strFrom o.line (o.colnr - 1)
                let curcol := o.col + item.word.length + 2
                (q.1, TCIOutcome.committed newLine curcol,
                  effs0 ++ q.2
                    ++ [Effect.setLine o.linenr newLine,
                      Effect.setCursor o.linenr curcol])
              else tciAfterCommit st c doc env effs0
            | none => tciAfterCommit st c doc env effs0
          | none => tciAfterCommit st c doc env effs0

/-! ### Concrete fixtures used by witnesses and counterexamples -/

/-- A trigger context: cursor after the two word characters of `"fo"`. -/
def exOpt : CompleteOption :=
  { bufnr := 1, linenr := 1, col := 2, colnr := 3, line := "fo", input := "a" }

/-- A plain candidate. -/
def exFoo : VimCompleteItem := { word := "foo" }

/-- A complete (non-incomplete) aggregator with results. -/
def exComplete : CompleteRec :=
  { option := exOpt, input := "a", results := true, isIncomplete := false }

/-- An aggregator flagged incomplete. -/
def exCompleteInc : CompleteRec :=
  { option := exOpt, input := "a", results := true, isIncomplete := true }

/-- An active session over `exComplete`. -/
def exResumeSt : CompletionState :=
  { activted := true, input := "a", complete := some exComplete }

/-- An active session over the incomplete aggregator. -/
def exResumeIncSt : CompletionState :=
  { activted := true, input := "a", complete := some exCompleteInc }

/-- A quiet resume environment whose provider calls yield `[exFoo]`. -/
def exResumeEnv : ResumeEnv :=
  { tick0 := 0, tickAfterWait := 0, tickAfterQuery := 0
    queryItems := fun _ => [exFoo], filterItems := fun _ => [exFoo]
    activeAfter := true, tickShow := 5 }

/-- A resume environment whose document tick moved during the settle wait. -/
def exResumeEnvMoved : ResumeEnv :=
  { exResumeEnv with tickAfterWait := 1 }

/-- An active session showing one candidate with the first one selected. -/
def exShownSt : CompletionState :=
  { activted := true, input := "a", complete := some exComplete
    completeItems := [exFoo], currIndex := 1 }

/-- An active session with an in-flight resolve token and an open preview. -/
def exRichSt : CompletionState :=
  { activted := true, input := "a", complete := some exComplete
    completeItems := [exFoo], currIndex := 1
    resolveToken := some 7, floating := true, documentPaused := true }

/-- A redraw environment with floating support and no cancellation. -/
def exPumEnv : PumEnv :=
  { floating := true, freshToken := 9, resolveCanceled := false
    canceledAfterWait := false, activeAfterWait := true }

/-- A document fixture; the classifiers are constants so that witnesses
evaluate. -/
def exDoc : DocumentRec :=
  { filetype := "typescript", bufnr := 1, isWord := fun _ => false }

/-- A start environment that resolves no document. -/
def exStartEnvNoDoc : StartEnv :=
  { document := none, sourcesCount := 0, fetch := Except.ok []
    isIncomplete := false, canceledAfterFetch := false, activeAfterFetch := true
    resumeInput := none, canceledAfterInput := false, tickShow := 0
    resumeEnv := exResumeEnv }

/-- A start environment whose document resolves but no source matches. -/
def exStartEnvNoSrc : StartEnv :=
  { exStartEnvNoDoc with document := some exDoc }

/-- A start environment whose fetch throws. -/
def exStartEnvThrow : StartEnv :=
  { exStartEnvNoDoc with
    document := some exDoc
    sourcesCount := 1
    fetch := Except.error "boom" }

/-- An idle controller remembering a previous input. -/
def exIdleSt : CompletionState := { input := "x" }

/-- An active session for the commit-character scenario: candidate `foo`
selected, `.` typed 50ms ago after `"fo"`. -/
def exCommitSt : CompletionState :=
  { config := { acceptSuggestionOnCommitCharacter := true }
    activted := true, input := "a", complete := some exComplete
    completeItems := [exFoo], currIndex := 1
    lastInsert := some { character := '.', timestamp := 0 } }

/-- The environment of the commit-character scenario: the provider commits
`foo` on `.`. -/
def exCommitEnv : TCIEnv :=
  { now := 50, document := some exDoc, thisDocIsWord := fun _ => false
    previousContent := some "fo", shouldCommit := fun _ ch => ch = '.'
    sourcesMatch := fun _ _ => false, isTriggerChar := fun _ => false
    completeOption := exOpt, startEnv := exStartEnvNoDoc
    resumeEnv := exResumeEnv }

/-- An active session that accepted `foo` with known keystroke timestamps. -/
def exDoneSt : CompletionState :=
  { activted := true, hasDocument := true, documentBufnr := 1
    input := "a", complete := some exComplete
    completeItems := [exFoo], currIndex := 1
    insertCharTs := 10, insertLeaveTs := 20 }

/-- A fresh acceptance environment: still insert mode, timestamps unchanged,
the buffer tail still ends with the accepted word. -/
def exDoneEnv : DoneEnv :=
  { now := 100, resolveThrows := false, modeAfter := "i"
    insertCharTsAfter := 10, insertLeaveTsAfter := 20
    contentAfter := some "xfoo" }

/-! ### Helper lemmas -/

theorem stop_of_not_activted (st : CompletionState) (h : st.activted = false) :
    stop st = (st, []) := by
  simp [stop, h]

theorem stop_fst_of_activted (st : CompletionState) (h : st.activted = true) :
    (stop st).1 = { st with
      activted := false
      documentPaused := false
      completeItems := []
      complete := none
      resolveToken := none
      floating := false
      canceledTokens :=
        match st.resolveToken with
        | some t => t :: st.canceledTokens
        | none => st.canceledTokens } := by
  cases hr : st.resolveToken <;> by_cases hf : st.floating <;>
    simp [stop, closePreviewWindow, h, hr, hf]

theorem stop_snd_of_activted (st : CompletionState) (h : st.activted = true) :
    (stop st).2 =
      (if st.floating then [Effect.previewClose] else [])
        ++ [Effect.fireContentChanges]
        ++ (if st.complete.isSome then [Effect.completeCancel] else [])
        ++ (if st.config.numberSelect then [Effect.unmapKeys] else [])
        ++ [Effect.hidePopup]
        ++ (if st.config.keepCompleteopt then [] else [Effect.restoreCompleteopt]) := by
  cases hr : st.resolveToken <;> by_cases hf : st.floating <;>
    simp [stop, closePreviewWindow, h, hr, hf]

theorem stop_fst_activted_false (st : CompletionState) :
    (stop st).1.activted = false := by
  cases hb : st.activted
  · simp [stop_of_not_activted st hb, hb]
  · simp [stop_fst_of_activted st hb]

theorem hidePopup_mem_stop_snd (st : CompletionState) (h : st.activted = true) :
    Effect.hidePopup ∈ (stop st).2 := by
  rw [stop_snd_of_activted st h]
  simp

theorem acceptHook_not_mem_stop_snd (st : CompletionState) (w : String) :
    Effect.acceptHook w ∉ (stop st).2 := by
  cases hb : st.activted
  · simp [stop_of_not_activted st hb]
  · rw [stop_snd_of_activted st hb]
    split <;> split <;> split <;> split <;> simp

theorem onPumRedraw_items_eq (st : CompletionState) (item : VimCompleteItem)
    (env : PumEnv) :
    (onPumRedraw st item env).1.completeItems = st.completeItems := by
  cases hr : st.resolveToken with
  | none =>
    simp only [onPumRedraw, closePreviewWindow, hr]
    repeat' split
    all_goals rfl
  | some t =>
    simp only [onPumRedraw, closePreviewWindow, hr]
    repeat' split
    all_goals rfl

theorem onPumRedraw_currIndex_le (st : CompletionState) (item : VimCompleteItem)
    (env : PumEnv) (hle : st.currIndex ≤ st.completeItems.length) :
    (onPumRedraw st item env).1.currIndex ≤ st.completeItems.length := by
  cases hr : st.resolveToken with
  | none =>
    simp only [onPumRedraw, closePreviewWindow, hr]
    repeat' split
    all_goals
      first
      | exact hle
      | exact Nat.zero_le _
      | (rename List.find? _ _ = some _ => heq
         have hmem := List.mem_of_find?_eq_some heq
         have hp := List.find?_some heq
         exact Nat.succ_le_of_lt (List.findIdx_lt_length_of_exists ⟨_, hmem, hp⟩))
  | some t =>
    simp only [onPumRedraw, closePreviewWindow, hr]
    repeat' split
    all_goals
      first
      | exact hle
      | exact Nat.zero_le _
      | (rename List.find? _ _ = some _ => heq
         have hmem := List.mem_of_find?_eq_some heq
         have hp := List.find?_some heq
         exact Nat.succ_le_of_lt (List.findIdx_lt_length_of_exists ⟨_, hmem, hp⟩))

theorem doCompleteCmd_not_mem_stop_snd (st : CompletionState) (col : Nat)
    (items : List VimCompleteItem) :
    Effect.doCompleteCmd col items ∉ (stop st).2 := by
  cases hb : st.activted
  · simp [stop_of_not_activted st hb]
  · rw [stop_snd_of_activted st hb]
    split <;> split <;> split <;> split <;> simp

theorem resumeCompletion_stale_eq (st : CompletionState) (c : CompleteRec)
    (search : Option String) (env : ResumeEnv) (hc : st.complete = some c)
    (hact : st.activted = true) (hres : c.results = true)
    (hne : search ≠ some st.input)
    (hstale : search = none ∨
      ∃ s, search = some s ∧
        (strEndsWith s " " = true ∨ s.length < c.input.length)) :
    resumeCompletion st search env
      = ((stop st).1, ResumeOutcome.stopped, (stop st).2) := by
  have hguard : ¬ (st.activted = false ∨ c.results = false ∨ search = some st.input) := by
    rw [hact, hres]
    simp only [Bool.true_eq_false, false_or]
    exact hne
  rcases hstale with hnone | ⟨s, hs, hcond⟩
  · subst hnone
    simp only [resumeCompletion, hc]
    rw [if_neg hguard]
  · subst hs
    simp only [resumeCompletion, hc]
    rw [if_neg hguard, if_pos hcond]

/-! ### Claims -/

/-- C10: calling `resumeCompletion` with a search string equal to the
controller's current recorded input is a complete no-op: the state is
returned unchanged (so an active session remains active and the candidate
list and popup are untouched), the outcome is `noop`, and no effect — no
provider call, no filter, no stop, no host command — is produced. -/
theorem C10_resume_equal_input_noop (st : CompletionState) (env : ResumeEnv) :
    resumeCompletion st (some st.input) env = (st, ResumeOutcome.noop, []) := by
  unfold resumeCompletion
  cases st.complete with
  | none => rfl
  | some c => simp

/-- C9: `latestInsert` yields the recorded pending-insert mark exactly when
one exists and was recorded no more than 100ms before `now`, and yields
nothing otherwise. -/
theorem C9_latestInsert_age_bound (li : Option LastInsert) (now : Int)
    (m : LastInsert) :
    latestInsert li now = some m ↔ li = some m ∧ now - m.timestamp ≤ 100 := by
  cases li with
  | none => simp [latestInsert]
  | some l =>
    by_cases h : now - l.timestamp > 100
    · rw [show latestInsert (some l) now
          = if now - l.timestamp > 100 then none else some l from rfl, if_pos h]
      constructor
      · intro hc; cases hc
      · rintro ⟨h1, hle⟩
        injection h1 with h1
        subst h1
        omega
    · rw [show latestInsert (some l) now
          = if now - l.timestamp > 100 then none else some l from rfl, if_neg h]
      constructor
      · intro h1
        injection h1 with h1
        subst h1
        exact ⟨rfl, by omega⟩
      · rintro ⟨h1, _⟩
        injection h1 with h1
        rw [h1]

/-- C8: `stop()` is idempotent — the second call on the already-stopped
controller returns the state unchanged and issues no command — and a call
on an active controller cancels the in-flight resolve token (which then
reports canceled), closes the preview, releases the document's paused flag,
clears the candidate list, discards the aggregator and emits the hide-popup
command. -/
theorem C8_stop_idempotent_and_teardown (st : CompletionState) :
    stop (stop st).1 = ((stop st).1, []) ∧
    (st.activted = true →
      (stop st).1.activted = false ∧
      (∀ t, st.resolveToken = some t → t ∈ (stop st).1.canceledTokens) ∧
      (stop st).1.floating = false ∧
      (stop st).1.documentPaused = false ∧
      (stop st).1.completeItems = [] ∧
      (stop st).1.complete = none ∧
      Effect.hidePopup ∈ (stop st).2) := by
  refine ⟨stop_of_not_activted _ (stop_fst_activted_false st), ?_⟩
  intro ha
  rw [stop_fst_of_activted st ha]
  refine ⟨rfl, ?_, rfl, rfl, rfl, rfl, hidePopup_mem_stop_snd st ha⟩
  intro t ht
  simp [ht]

/-- C8 witness: the teardown conclusions at the concrete active session
`exRichSt` (token 7 in flight, preview open). -/
theorem C8_witness :
    (stop exRichSt).1.activted = false ∧ 7 ∈ (stop exRichSt).1.canceledTokens ∧
    (stop exRichSt).1.floating = false ∧
    (stop exRichSt).1.completeItems = [] ∧
    Effect.hidePopup ∈ (stop exRichSt).2 := by
  have h := (C8_stop_idempotent_and_teardown exRichSt).2 (by decide)
  exact ⟨h.1, h.2.1 7 (by decide), h.2.2.1, h.2.2.2.2.1, h.2.2.2.2.2.2⟩

/-- C5 counterexample: the claimed invariant fails after `stop()`: stopping
the session fixture whose first candidate is selected clears the candidate
list but leaves `currIndex` at 1, outside `[0, completeItems.length] =
[0, 0]`. -/
theorem C5_counterexample :
    ¬ ((stop exShownSt).1.currIndex ≤ (stop exShownSt).1.completeItems.length) := by
  decide

/-- C5 amended: after every popup-redraw event the selection index stays
within `[0, completeItems.length]` whenever it was within the bound before
(the handler never changes the candidate list and writes only 0 or a
found index + 1), but `stop()` clears the candidate list while leaving
`currIndex` unchanged, so the bound can be violated right after `stop()`. -/
theorem C5_amended_index_bound (st : CompletionState) (item : VimCompleteItem)
    (env : PumEnv) (hle : st.currIndex ≤ st.completeItems.length) :
    (onPumRedraw st item env).1.currIndex
        ≤ (onPumRedraw st item env).1.completeItems.length ∧
    (onPumRedraw st item env).1.completeItems = st.completeItems ∧
    (stop st).1.currIndex = st.currIndex := by
  have hstop : (stop st).1.currIndex = st.currIndex := by
    cases hb : st.activted
    · rw [stop_of_not_activted st hb]
    · rw [stop_fst_of_activted st hb]
  have hitems := onPumRedraw_items_eq st item env
  refine ⟨?_, hitems, hstop⟩
  rw [hitems]
  exact onPumRedraw_currIndex_le st item env hle

/-- C5 witness: the amended bound at a concrete redraw of the shown session
fixture. -/
theorem C5_witness :
    (onPumRedraw exShownSt exFoo exPumEnv).1.currIndex
        ≤ (onPumRedraw exShownSt exFoo exPumEnv).1.completeItems.length ∧
    (stop exShownSt).1.currIndex = exShownSt.currIndex := by
  have h := C5_amended_index_bound exShownSt exFoo exPumEnv (by decide)
  exact ⟨h.1, h.2.2⟩


/-- C1 counterexample: in the active session fixture (trigger input `"a"`),
the computed search string `"a b"` contains a space character, yet
`resumeCompletion` does not terminate the session: the code only checks for
a trailing space (`endsWith(' ')`), so it filters and shows a candidate and
the session stays active. -/
theorem C1_counterexample :
    (' ' ∈ "a b".data) ∧
    (resumeCompletion exResumeSt (some "a b") exResumeEnv).2.1
        = ResumeOutcome.shown false [exFoo] ∧
    (resumeCompletion exResumeSt (some "a b") exResumeEnv).1.activted = true :=
  ⟨by decide, rfl, rfl⟩

/-- C1 amended: for every active session with results whose computed search
differs from the current input, if the search is null, ends with a space
character (not merely contains one), or is shorter than the original trigger
input, the session terminates: the outcome is `stopped`, the controller is
deactivated, the candidate list is cleared and the hide-popup command is
emitted, so no candidates are shown afterward. -/
theorem C1_stale_search_stops (st : CompletionState) (c : CompleteRec)
    (search : Option String) (env : ResumeEnv)
    (hc : st.complete = some c) (hact : st.activted = true)
    (hres : c.results = true) (hne : search ≠ some st.input)
    (hstale : search = none ∨
      ∃ s, search = some s ∧
        (strEndsWith s " " = true ∨ s.length < c.input.length)) :
    (resumeCompletion st search env).2.1 = ResumeOutcome.stopped ∧
    (resumeCompletion st search env).1.activted = false ∧
    (resumeCompletion st search env).1.completeItems = [] ∧
    Effect.hidePopup ∈ (resumeCompletion st search env).2.2 := by
  rw [resumeCompletion_stale_eq st c search env hc hact hres hne hstale]
  rw [stop_fst_of_activted st hact]
  exact ⟨rfl, rfl, rfl, hidePopup_mem_stop_snd st hact⟩

/-- C1 witness: the amended behaviour at the session fixture with the empty
search (shorter than the trigger input `"a"`). -/
theorem C1_witness :
    (resumeCompletion exResumeSt (some "") exResumeEnv).2.1
        = ResumeOutcome.stopped ∧
    (resumeCompletion exResumeSt (some "") exResumeEnv).1.activted = false := by
  have h := C1_stale_search_stops exResumeSt exComplete (some "") exResumeEnv
    rfl rfl rfl (by decide) (Or.inr ⟨"", rfl, Or.inr (by decide)⟩)
  exact ⟨h.1, h.2.1⟩

/-- C2: when the active session's aggregator is flagged incomplete, a
`shown` outcome (candidates applied) can only arise from the provider
requery path and only when the changedtick re-read after the settle delay
and the re-read after the requery both equal the tick captured before
suspending; if either re-read moved, nothing is shown and no host complete
command is emitted. -/
theorem C2_incomplete_tick_guard (st : CompletionState) (c : CompleteRec)
    (search : Option String) (env : ResumeEnv)
    (hc : st.complete = some c) (hinc : c.isIncomplete = true) :
    (∀ b items, (resumeCompletion st search env).2.1 = ResumeOutcome.shown b items →
      b = true ∧ env.tickAfterWait = env.tick0 ∧ env.tickAfterQuery = env.tick0) ∧
    ((env.tickAfterWait ≠ env.tick0 ∨ env.tickAfterQuery ≠ env.tick0) →
      (∀ b items, (resumeCompletion st search env).2.1 ≠ ResumeOutcome.shown b items) ∧
      (∀ col items, Effect.doCompleteCmd col items ∉ (resumeCompletion st search env).2.2)) := by
  constructor
  · intro b items h
    simp only [resumeCompletion, finishResume, hc] at h
    repeat' split at h
    all_goals simp_all
  · intro hmis
    constructor
    · intro b items h
      simp only [resumeCompletion, finishResume, hc] at h
      repeat' split at h
      all_goals simp_all
    · intro col items hmem
      simp only [resumeCompletion, finishResume, hc] at hmem
      repeat' split at hmem
      all_goals
        first
        | exact doCompleteCmd_not_mem_stop_snd _ _ _ hmem
        | (simp only [List.mem_cons] at hmem
           rcases hmem with h1 | h1 | h1
           · exact absurd h1 (by simp)
           · exact absurd h1 (by simp)
           · exact doCompleteCmd_not_mem_stop_snd _ _ _ h1)
        | simp_all

/-- C2 witness: with the incomplete-aggregator fixture and a moved
changedtick, the narrowed search `"ab"` produces no shown outcome. -/
theorem C2_witness :
    (resumeCompletion exResumeIncSt (some "ab") exResumeEnvMoved).2.1
      ≠ ResumeOutcome.shown true [exFoo] := by
  have h := (C2_incomplete_tick_guard exResumeIncSt exCompleteInc (some "ab")
    exResumeEnvMoved rfl rfl).2 (Or.inl (by decide))
  exact h.1 true [exFoo]

theorem getInputGo_length_ge_one (f : Char → Bool) (pre : List Char) :
    ∀ i, i < pre.length → 1 ≤ (getInputGo f pre i).length := by
  intro i
  induction i with
  | zero =>
    intro h
    simpa using h
  | succ n ih =>
    intro h
    unfold getInputGo
    split
    · rw [List.length_drop]
      omega
    · exact ih (Nat.lt_of_succ_lt h)

theorem getInput_length_ge_one (f : Char → Bool) (pre : List Char)
    (h : pre ≠ []) : 1 ≤ (getInput f pre).length := by
  cases pre with
  | nil => exact absurd rfl h
  | cons a l =>
    show 1 ≤ (getInputGo f (a :: l) ((a :: l).length - 1)).length
    exact getInputGo_length_ge_one f (a :: l) _ (by simp)

theorem data_ne_nil_of_ne_empty (pre : String) (h : pre ≠ "") :
    pre.data ≠ [] := by
  intro hd
  apply h
  cases pre with
  | mk l =>
    have hl : l = [] := hd
    rw [hl]

/-- C3 counterexample: with auto-trigger mode `none`, a provider
trigger-character match on the preceding text `"foo."` does not make
`shouldTrigger` return true: the code returns false for mode `none` before
consulting the provider table, so provider-driven triggers do not fire
regardless of mode. -/
theorem C3_counterexample :
    shouldTrigger { autoTrigger := "none" } (fun _ => false) true
      (some "foo.") = false := rfl

/-- C3 amended: `shouldTrigger` returns true on a provider trigger-character
match whenever the preceding text is non-empty and not all-blank and the
configured mode is not `none` — but in mode `none` it always returns false,
provider match or not; when no provider matches, it returns true only in
`always` mode when the character before the cursor is a word character and
the trailing run of word characters reaches the configured minimum
length. -/
theorem C3_trigger_policy (config : CompleteConfig) (isWordF : Char → Bool)
    (sourcesMatch : Bool) (pre : String) :
    ((pre ≠ "" ∧ isBlank pre = false) → config.autoTrigger ≠ "none" →
      sourcesMatch = true →
      shouldTrigger config isWordF sourcesMatch (some pre) = true) ∧
    (config.autoTrigger = "none" →
      shouldTrigger config isWordF sourcesMatch (some pre) = false) ∧
    (shouldTrigger config isWordF sourcesMatch (some pre) = true →
      sourcesMatch = false →
      config.autoTrigger = "always" ∧ isWordF pre.back = true ∧
        config.minTriggerInputLength ≤ (getInput isWordF pre.data).length) := by
  refine ⟨?_, ?_, ?_⟩
  · rintro ⟨hne, hbl⟩ hnone hsm
    simp only [shouldTrigger]
    rw [if_neg (by simp [hne, hbl]), if_neg hnone]
    simp [hsm]
  · intro hnone
    simp only [shouldTrigger]
    by_cases hb : pre = "" ∨ isBlank pre = true
    · rw [if_pos hb]
    · rw [if_neg hb, if_pos hnone]
  · intro htrue hsm
    simp only [shouldTrigger] at htrue
    by_cases hb : pre = "" ∨ isBlank pre = true
    · rw [if_pos hb] at htrue
      exact absurd htrue (by simp)
    · rw [if_neg hb] at htrue
      by_cases hnone : config.autoTrigger = "none"
      · rw [if_pos hnone] at htrue
        exact absurd htrue (by simp)
      · rw [if_neg hnone] at htrue
        rw [hsm] at htrue
        rw [if_neg (by simp)] at htrue
        by_cases halw : config.autoTrigger ≠ "always"
        · rw [if_pos halw] at htrue
          exact absurd htrue (by simp)
        · rw [if_neg halw] at htrue
          have halw' : config.autoTrigger = "always" := not_not.mp halw
          by_cases hw : isWordF pre.back = true
          · rw [if_pos hw] at htrue
            refine ⟨halw', hw, ?_⟩
            by_cases hmin : config.minTriggerInputLength = 1
            · rw [hmin]
              refine getInput_length_ge_one isWordF pre.data ?_
              refine data_ne_nil_of_ne_empty pre ?_
              intro he
              exact hb (Or.inl he)
            · rw [if_neg hmin] at htrue
              exact of_decide_eq_true htrue
          · rw [if_neg hw] at htrue
            exact absurd htrue (by simp)

/-- C3 witness: the amended provider-match clause at a concrete
provider-driven mode, preceding text `"ab"` and a matching provider. -/
theorem C3_witness :
    shouldTrigger { autoTrigger := "trigger" } (fun _ => false) true
      (some "ab") = true := by
  have h := (C3_trigger_policy { autoTrigger := "trigger" }
    (fun _ => false) true "ab").1
  exact h ⟨by decide, by decide⟩ (by decide) rfl

theorem forceSync_not_mem_stop_snd (st : CompletionState) :
    Effect.forceSync ∉ (stop st).2 := by
  cases hb : st.activted
  · simp [stop_of_not_activted st hb]
  · rw [stop_snd_of_activted st hb]
    split <;> split <;> split <;> split <;> simp

theorem bool_ne_false_eq_true {b : Bool} (h : ¬ b = false) : b = true := by
  cases b
  · exact absurd rfl h
  · rfl

theorem addRecent_activted (st : CompletionState) (w : String) (b : Nat)
    (n : Int) : (addRecent st w b n).activted = st.activted := by
  unfold addRecent
  split <;> rfl

/-- C6: after a candidate is accepted through `onCompleteDone` on an active
session with a document, the session ends stopped, and the provider's accept
hook and the buffer re-sync appear among the emitted effects only when the
editor mode re-read after the settle wait is insert mode, the keystroke and
insert-leave timestamps are unchanged since acceptance, and the re-read
buffer content before the cursor still ends with the accepted word; when any
of these freshness checks fails, the hook and the re-sync are skipped
silently. -/
theorem C6_accept_freshness (st : CompletionState) (w : String)
    (userData : String) (env : DoneEnv)
    (hact : st.activted = true) (hdoc : st.hasDocument = true) :
    (onCompleteDone st (some w) userData env).1.activted = false ∧
    (∀ w', Effect.acceptHook w' ∈ (onCompleteDone st (some w) userData env).2 →
      env.modeAfter = "i" ∧ env.insertCharTsAfter = st.insertCharTs ∧
      env.insertLeaveTsAfter = st.insertLeaveTs ∧
      ∃ content, env.contentAfter = some content ∧
        strEndsWith content w' = true) ∧
    (Effect.forceSync ∈ (onCompleteDone st (some w) userData env).2 →
      env.modeAfter = "i" ∧ env.insertCharTsAfter = st.insertCharTs ∧
      env.insertLeaveTsAfter = st.insertLeaveTs) := by
  have hguard : ¬ (st.activted = false ∨ st.hasDocument = false
      ∨ (some w : Option String) = none) := by
    simp [hact, hdoc]
  have hts : (stop st).1.insertCharTs = st.insertCharTs := by
    rw [stop_fst_of_activted st hact]
  have hlts : (stop st).1.insertLeaveTs = st.insertLeaveTs := by
    rw [stop_fst_of_activted st hact]
  refine ⟨?_, ?_, ?_⟩
  · simp only [onCompleteDone, Option.getD_some]
    rw [if_neg hguard]
    repeat' split
    all_goals
      first
      | exact stop_fst_activted_false st
      | exact (addRecent_activted (stop st).1 _ _ _).trans
          (stop_fst_activted_false st)
  · intro w' hmem
    simp only [onCompleteDone, Option.getD_some] at hmem
    rw [if_neg hguard] at hmem
    repeat' split at hmem
    all_goals try simp at hmem
    all_goals
      first
      | exact absurd hmem (acceptHook_not_mem_stop_snd st w')
      | (rcases hmem with h1 | h1
         · exact absurd h1 (acceptHook_not_mem_stop_snd st w')
         · subst h1
           rename ¬ (env.modeAfter ≠ "i" ∨ _ ∨ _) => hfresh
           rename env.contentAfter = some _ => hcon
           rename ¬ (strEndsWith _ _ = false) => hends
           push_neg at hfresh
           exact ⟨hfresh.1, hts ▸ hfresh.2.1, hlts ▸ hfresh.2.2, _, hcon,
             bool_ne_false_eq_true hends⟩)
  · intro hmem
    simp only [onCompleteDone, Option.getD_some] at hmem
    rw [if_neg hguard] at hmem
    repeat' split at hmem
    all_goals try simp at hmem
    all_goals
      first
      | exact absurd hmem (forceSync_not_mem_stop_snd st)
      | (rcases hmem with h1 | h1
         · exact absurd h1 (forceSync_not_mem_stop_snd st)
         · rename ¬ (env.modeAfter ≠ "i" ∨ _ ∨ _) => hfresh
           push_neg at hfresh
           exact ⟨hfresh.1, hts ▸ hfresh.2.1, hlts ▸ hfresh.2.2⟩)
      | (rename ¬ (env.modeAfter ≠ "i" ∨ _ ∨ _) => hfresh
         push_neg at hfresh
         exact ⟨hfresh.1, hts ▸ hfresh.2.1, hlts ▸ hfresh.2.2⟩)

/-- C6 witness: the acceptance fixture (`foo` accepted, all freshness checks
passing) ends deactivated, and a force-sync in its effects certifies insert
mode. -/
theorem C6_witness :
    (onCompleteDone exDoneSt (some "foo") "" exDoneEnv).1.activted = false ∧
    (Effect.forceSync ∈ (onCompleteDone exDoneSt (some "foo") "" exDoneEnv).2 →
      exDoneEnv.modeAfter = "i") := by
  have h := C6_accept_freshness exDoneSt "foo" "" exDoneEnv rfl rfl
  exact ⟨h.1, fun hm => (h.2.2 hm).1⟩

/-- C7 counterexample: when the document resolves but no provider matches,
`startCompletion` is silent (outcome `noSources`, no effects, no message),
but it is not free of state changes: the controller records the trigger
input and the resolved document, so the resulting state differs from the
initial one, refuting the "no state changes" part of the claim. -/
theorem C7_counterexample :
    (startCompletion exIdleSt exOpt exStartEnvNoSrc).2.1
        = StartOutcome.noSources ∧
    (startCompletion exIdleSt exOpt exStartEnvNoSrc).2.2 = [] ∧
    (startCompletion exIdleSt exOpt exStartEnvNoSrc).1 ≠ exIdleSt ∧
    (startCompletion exIdleSt exOpt exStartEnvNoSrc).1.input
        ≠ exIdleSt.input := by
  refine ⟨rfl, rfl, ?_, ?_⟩ <;> decide

/-- C7 amended: `startCompletion` is a complete no-op (state unchanged, no
effect, no message) when the document cannot be resolved; when no provider
matches it is silent — no session, no effect, no message — but the document
and the trigger input are still recorded on the controller; and whenever the
completion fetch throws, the session is torn down via `stop()` (controller
deactivated), a user-visible error message is emitted and the error stack is
logged. -/
theorem C7_start_failure_modes (st : CompletionState) (opt : CompleteOption)
    (env : StartEnv) :
    (env.document = none →
      startCompletion st opt env = (st, StartOutcome.noDocument, [])) ∧
    (∀ doc, env.document = some doc → env.sourcesCount = 0 →
      startCompletion st opt env
        = ({ st with
              hasDocument := true
              documentBufnr := doc.bufnr
              input := opt.input }, StartOutcome.noSources, [])) ∧
    (∀ doc msg, env.document = some doc → env.sourcesCount ≠ 0 →
      env.fetch = Except.error msg →
      (startCompletion st opt env).2.1 = StartOutcome.errorHandled msg ∧
      (startCompletion st opt env).1.activted = false ∧
      Effect.errorMessage ("Error happens on complete: " ++ msg)
          ∈ (startCompletion st opt env).2.2 ∧
      Effect.logErrorStack ∈ (startCompletion st opt env).2.2) := by
  refine ⟨?_, ?_, ?_⟩
  · intro h
    simp only [startCompletion, h]
  · intro doc hdoc hsrc
    simp only [startCompletion, doCompleteM, hdoc]
    rw [if_pos hsrc]
  · intro doc msg hdoc hsrc hfetch
    simp only [startCompletion, doCompleteM, hdoc, hfetch]
    rw [if_neg hsrc]
    refine ⟨rfl, stop_fst_activted_false _, ?_, ?_⟩ <;> simp

/-- C7 witness: the unresolved-document case at the idle fixture is a full
no-op. -/
theorem C7_witness :
    startCompletion exIdleSt exOpt exStartEnvNoDoc
      = (exIdleSt, StartOutcome.noDocument, []) :=
  (C7_start_failure_modes exIdleSt exOpt exStartEnvNoDoc).1 rfl

/-- C4: on a text-change while active, when commit-character acceptance is
enabled, the latest genuine keystroke is a non-word character, and the
currently selected (or first, if none selected) candidate's provider reports
that character as a commit character, the session stops (controller
deactivated), the line-rewrite command carries original prefix + candidate
word + the commit character + original suffix, the cursor command targets
the position immediately past the inserted text, and no provider accept
hook is fired on this path. -/
theorem C4_commit_character (st : CompletionState) (bufnr : Nat)
    (env : TCIEnv) (doc : DocumentRec) (c : CompleteRec) (ch : Char)
    (item : VimCompleteItem)
    (hdoc : env.document = some doc)
    (hact : st.activted = true) (hc : st.complete = some c)
    (hbuf : c.option.bufnr = bufnr)
    (hcfg : st.config.acceptSuggestionOnCommitCharacter = true)
    (hch : latestInsertChar st.lastInsert env.now = some ch)
    (hword : env.thisDocIsWord ch = false)
    (hitem : commitCandidate st = some item)
    (hcommit : env.shouldCommit item ch = true) :
    (onTextChangedI st bufnr env).2.1
        = TCIOutcome.committed
            (strTake c.option.line c.option.col ++ item.word
              ++ String.mk [ch] ++ strFrom c.option.line (c.option.colnr - 1))
            (c.option.col + item.word.length + 2) ∧
    (onTextChangedI st bufnr env).1.activted = false ∧
    Effect.setLine c.option.linenr
        (strTake c.option.line c.option.col ++ item.word
          ++ String.mk [ch] ++ strFrom c.option.line (c.option.colnr - 1))
      ∈ (onTextChangedI st bufnr env).2.2 ∧
    Effect.setCursor c.option.linenr (c.option.col + item.word.length + 2)
      ∈ (onTextChangedI st bufnr env).2.2 ∧
    (∀ w, Effect.acceptHook w ∉ (onTextChangedI st bufnr env).2.2) := by
  have hrec : ({ st with
      activted := true
      lastInsert := none
      complete := some c } : CompletionState)
      = { st with lastInsert := none } := by
    rw [← hact, ← hc]
  have hitem' : commitCandidate { st with
      activted := true
      lastInsert := none
      complete := some c } = some item := by
    rw [hrec]
    exact hitem
  refine ⟨?_, ?_, ?_, ?_, ?_⟩
  · simp [onTextChangedI, hdoc, hch, hc, hitem', hcfg, hword, hcommit, hact, hbuf]
  · simp [onTextChangedI, hdoc, hch, hc, hitem', hcfg, hword, hcommit, hact, hbuf]
    exact stop_fst_activted_false _
  · simp [onTextChangedI, hdoc, hch, hc, hitem', hcfg, hword, hcommit, hact, hbuf]
  · simp [onTextChangedI, hdoc, hch, hc, hitem', hcfg, hword, hcommit, hact, hbuf]
  · intro w
    simp [onTextChangedI, hdoc, hch, hc, hitem', hcfg, hword, hcommit, hact, hbuf]
    exact acceptHook_not_mem_stop_snd _ w

/-- C4 witness: the commit scenario at the fixture — candidate `foo`
selected, `.` typed after `"fo"` — rewrites the line to `"fofoo."` and stops
the session. -/
theorem C4_witness :
    (onTextChangedI exCommitSt 1 exCommitEnv).2.1
        = TCIOutcome.committed
            (strTake exOpt.line exOpt.col ++ exFoo.word
              ++ String.mk ['.'] ++ strFrom exOpt.line (exOpt.colnr - 1))
            (exOpt.col + exFoo.word.length + 2) ∧
    (onTextChangedI exCommitSt 1 exCommitEnv).1.activted = false := by
  have h := C4_commit_character exCommitSt 1 exCommitEnv exDoc exComplete '.'
    exFoo rfl rfl rfl rfl rfl rfl rfl rfl rfl
  exact ⟨h.1, h.2.1⟩

/-- C9 witness: a mark recorded 50ms ago is returned. -/
theorem C9_witness :
    latestInsert (some { character := 'a', timestamp := 0 }) 50
      = some { character := 'a', timestamp := 0 } :=
  (C9_latestInsert_age_bound (some { character := 'a', timestamp := 0 }) 50
    { character := 'a', timestamp := 0 }).mpr ⟨rfl, by decide⟩
